import Mathlib

set_option maxHeartbeats 1000000

/-!
Formal model of the LLM invocation core of this repository:
`llms/base.ts` (the BaseLLM facade: module-level cache, cache-keyed
generate, callback handling) and the OpenAI provider adapter
(`_generate` with batching and streaming reconstruction,
`invocationParams`, `completionWithRetry`, `PromptLayerOpenAI`).
External collaborators that are not part of the sources
(`chunkArray` from util, the `exponential-backoff` library, `p-queue`,
`InMemoryCache` from cache.js) are modelled from the specification and
say so in their doc comments.
-/

/-- One raw provider choice (`CreateCompletionResponseChoicesInner`):
every field optional, as on the wire. -/
structure Choice where
  text : Option String := none
  finish_reason : Option String := none
  logprobs : Option String := none
deriving Repr, DecidableEq

/-- One produced completion, as built at the end of `OpenAI._generate`:
`text` defaulted to the empty string, metadata copied from the choice. -/
structure Generation where
  text : String
  finishReason : Option String
  logprobs : Option String
deriving Repr, DecidableEq

/-- Accumulated token usage (`TokenUsage` in the adapter).
A `none` field models an absent field. -/
structure TokenUsage where
  completionTokens : Option Nat := none
  promptTokens : Option Nat := none
  totalTokens : Option Nat := none
deriving Repr, DecidableEq

/-- Raw usage block of one provider response (`data.usage`). -/
structure Usage where
  completion_tokens : Option Nat := none
  prompt_tokens : Option Nat := none
  total_tokens : Option Nat := none
deriving Repr, DecidableEq

/-- Result shape of `_generate`: per-prompt generation lists plus
`llmOutput`. `none` models the empty object, `some u` models an object
holding a `tokenUsage` field. -/
structure LLMResult where
  generations : List (List Generation)
  llmOutput : Option TokenUsage
deriving Repr, DecidableEq

/-- One server-sent event payload of a streamed completion: the literal
terminal sentinel, or a parsed JSON body carrying a `choices` array. -/
inductive SSE where
  | done : SSE
  | chunk : List Choice → SSE
deriving Repr, DecidableEq

/-- What one network call returns. `choices`/`usage` are read on the
non-streaming path, `events` is the event stream on the streaming path. -/
structure ProviderData where
  choices : List Choice := []
  usage : Option Usage := none
  events : List SSE := []

/-- A provider oracle: effective stop list and one sub-batch of prompts
in, response data out. -/
abbrev Provider := Option (List String) → List String → ProviderData

/-- Outcome of an invocation: success, a thrown error (modelled as its
message string), or a computation that never settles (a streamed call
whose event stream ends without the terminal sentinel). -/
inductive Outcome (α : Type) where
  | ok : α → Outcome α
  | err : String → Outcome α
  | hang : Outcome α
deriving Repr, DecidableEq

/-- The callback manager of `llms/base.ts`: each hook may throw
(modelled as `Except.error`). -/
structure LLMCallbackManager where
  handleStart : List String → Except String Unit
  handleEnd : LLMResult → Except String Unit
  handleError : String → Except String Unit

/-- The default callback manager (`getCallbackManager` in base.ts):
every hook is a no-op. -/
def getCallbackManager : LLMCallbackManager :=
  ⟨fun _ => .ok (), fun _ => .ok (), fun _ => .ok ()⟩

/-- The configurable fields of the `OpenAI` class with their class-level
defaults (openai adapter source, lines 99-125). -/
structure OpenAI where
  temperature : Rat := mkRat 7 10
  maxTokens : Int := 256
  topP : Rat := mkRat 1 1
  frequencyPenalty : Rat := mkRat 0 1
  presencePenalty : Rat := mkRat 0 1
  n : Nat := 1
  bestOf : Nat := 1
  logitBias : Option (List (String × Rat)) := none
  modelName : String := "text-davinci-003"
  modelKwargs : List (String × String) := []
  batchSize : Nat := 20
  maxRetries : Nat := 6
  stop : Option (List String) := none
  streaming : Bool := false
deriving Repr, DecidableEq

/-- An `OpenAI` instance built with no explicit fields. -/
def OpenAI.defaults : OpenAI := {}

/-- Wire-shaped invocation parameters (`OpenAI.invocationParams`). -/
structure InvocationParams where
  model : String
  temperature : Rat
  max_tokens : Int
  top_p : Rat
  frequency_penalty : Rat
  presence_penalty : Rat
  n : Nat
  best_of : Nat
  logit_bias : Option (List (String × Rat))
  stop : Option (List String)
  stream : Bool
  kwargs : List (String × String)
deriving Repr, DecidableEq

/-- `OpenAI.invocationParams`: translate the instance fields into the
wire shape, `stop` taken from the constructor-supplied stop list. -/
def OpenAI.invocationParams (o : OpenAI) : InvocationParams :=
  ⟨o.modelName, o.temperature, o.maxTokens, o.topP, o.frequencyPenalty,
   o.presencePenalty, o.n, o.bestOf, o.logitBias, o.stop, o.streaming,
   o.modelKwargs⟩

/-- The serialized form (`BaseLLM.serialize`, with
`OpenAI._identifyingParams`): `model_name`, the invocation parameters,
the client configuration (api key) and the `_type` discriminator.
Record equality models equality of the sorted-entry string. -/
structure SerializedOpenAI where
  model_name : String
  ip : InvocationParams
  apiKey : Option String
  ty : String
deriving Repr, DecidableEq

/-- `OpenAI.serialize()` for an instance with the given api key. -/
def OpenAI.serialize (o : OpenAI) (apiKey : Option String) : SerializedOpenAI :=
  ⟨o.modelName, o.invocationParams, apiKey, "openai"⟩

/-- The cache key derived in `BaseLLM.generate` (base.ts lines 112-115):
the serialized parameters with the `stop` entry overwritten by the
call-argument stop list, even when that argument is absent. -/
def llmStringKey (o : OpenAI) (apiKey : Option String)
    (stop : Option (List String)) : SerializedOpenAI :=
  let params := o.serialize apiKey
  { params with ip := { params.ip with stop := stop } }

/-- The effective stop list used for the request
(`params.stop = stop ?? params.stop` in `OpenAI._generate`). -/
def effectiveStop (o : OpenAI) (stop : Option (List String)) :
    Option (List String) :=
  match stop with
  | some s => some s
  | none => o.stop

/-- The module-level cache state. Modelled from the spec: the Cache
Store contract of `InMemoryCache` (cache.js is not among the sources):
a key/value store from (prompt, signature) pairs to generation lists. -/
abbrev Store := List ((String × SerializedOpenAI) × List Generation)

/-- Modelled from the spec: `lookup(prompt, signature)` returns the
value most recently stored under that pair, if any. -/
def storeLookup (st : Store) (p : String) (k : SerializedOpenAI) :
    Option (List Generation) :=
  (st.find? (fun e => decide (e.1.1 = p ∧ e.1.2 = k))).map (·.2)

/-- Modelled from the spec: `update(prompt, signature, value)` makes the
pair resolve to `value` until overwritten. -/
def storeUpdate (st : Store) (p : String) (k : SerializedOpenAI)
    (g : List Generation) : Store :=
  ((p, k), g) :: st

/-- Fuel-indexed worker for `chunkArray`. -/
def chunkArrayAux {α : Type} : Nat → List α → Nat → List (List α)
  | 0, _, _ => []
  | _ + 1, [], _ => []
  | fuel + 1, x :: xs, k =>
    if k = 0 then []
    else (x :: xs).take k :: chunkArrayAux fuel ((x :: xs).drop k) k

/-- Modelled from the spec: `chunkArray` from util (not among the
sources) splits a list into consecutive sub-batches of the given size,
the last possibly smaller, preserving order. -/
def chunkArray {α : Type} (xs : List α) (k : Nat) : List (List α) :=
  chunkArrayAux xs.length xs k

/-- Map one raw choice to a `Generation`
(end of `OpenAI._generate`, lines 315-323). -/
def toGeneration (c : Choice) : Generation :=
  ⟨c.text.getD "", c.finish_reason, c.logprobs⟩

/-- The streaming reconstruction driven by `createParser` in
`OpenAI._generate`: on a data event, append the first choice's text to
the accumulator and overwrite finish reason and logprobs; resolve with
the accumulator on the `[DONE]` sentinel; if the stream ends without a
sentinel the promise never settles. -/
def streamChoice : List SSE → Choice → Option Choice
  | [], _ => none
  | .done :: _, acc => some acc
  | .chunk cs :: rest, acc =>
    match cs.head? with
    | none => streamChoice rest acc
    | some part =>
      streamChoice rest
        ⟨some (acc.text.getD "" ++ part.text.getD ""),
         part.finish_reason, part.logprobs⟩

/-- Usage accumulation across sub-batches (`OpenAI._generate`,
lines 295-312): a counter is added only when the reported value is
present and non-zero (JS truthiness). -/
def addUsage (t : TokenUsage) (u : Usage) : TokenUsage :=
  let t1 :=
    match u.completion_tokens with
    | some c =>
      if c ≠ 0 then { t with completionTokens := some (t.completionTokens.getD 0 + c) } else t
    | none => t
  let t2 :=
    match u.prompt_tokens with
    | some c =>
      if c ≠ 0 then { t1 with promptTokens := some (t1.promptTokens.getD 0 + c) } else t1
    | none => t1
  match u.total_tokens with
  | some c =>
    if c ≠ 0 then { t2 with totalTokens := some (t2.totalTokens.getD 0 + c) } else t2
  | none => t2

/-- The sub-batch loop of `OpenAI._generate` (lines 246-313): one
network call per sub-batch; on the streaming path one reconstructed
choice is appended per sub-batch, on the non-streaming path all returned
choices are appended. Returns the flat choice list, the accumulated
usage, and the number of network calls performed. -/
def generateLoop (o : OpenAI) (provider : Provider)
    (effStop : Option (List String)) :
    List (List String) → List Choice → TokenUsage → Nat →
    Outcome (List Choice × TokenUsage) × Nat
  | [], choices, usage, calls => (.ok (choices, usage), calls)
  | sb :: rest, choices, usage, calls =>
    let data := provider effStop sb
    let usage2 := addUsage usage (data.usage.getD {})
    if o.streaming then
      match streamChoice data.events {} with
      | none => (.hang, calls + 1)
      | some c => generateLoop o provider effStop rest (choices ++ [c]) usage2 (calls + 1)
    else
      generateLoop o provider effStop rest (choices ++ data.choices) usage2 (calls + 1)

/-- `OpenAI._generate` (lines 234-328): reject when a stop list is both
on the instance and passed as an argument; split the prompts into
sub-batches of `batchSize`; run the loop; regroup the flat choice list
into per-prompt groups of `n`; report the token usage as `llmOutput`.
Also returns the number of network calls made. -/
def OpenAI._generate (o : OpenAI) (provider : Provider)
    (prompts : List String) (stop : Option (List String)) :
    Outcome LLMResult × Nat :=
  if o.stop.isSome ∧ stop.isSome then
    (.err "Stop found in input and default params", 0)
  else
    match generateLoop o provider (effectiveStop o stop)
        (chunkArray prompts o.batchSize) [] {} 0 with
    | (.ok (choices, usage), calls) =>
      (.ok ⟨(chunkArray choices o.n).map (fun pcs => pcs.map toGeneration),
            some usage⟩, calls)
    | (.err e, calls) => (.err e, calls)
    | (.hang, calls) => (.hang, calls)

/-- `BaseLLM._generateUncached` (base.ts lines 73-94): `handleStart`
before the call (its failure propagates), `handleError` then re-throw on
failure (a failure of `handleError` itself replaces the error),
`handleEnd` after success (its failure propagates). -/
def BaseLLM._generateUncached (cbm : LLMCallbackManager)
    (inner : Outcome LLMResult × Nat) (prompts : List String) :
    Outcome LLMResult × Nat :=
  match cbm.handleStart prompts with
  | .error e => (.err e, 0)
  | .ok _ =>
    match inner with
    | (.ok res, c) =>
      match cbm.handleEnd res with
      | .error e => (.err e, c)
      | .ok _ => (.ok res, c)
    | (.err e, c) =>
      match cbm.handleError e with
      | .error e2 => (.err e2, c)
      | .ok _ => (.err e, c)
    | (.hang, c) => (.hang, c)

/-- The raw value of `BaseLLM.generate`: the per-index generation array
(slots never filled stay `none`, as in the source where they remain
`null`) and the `llmOutput` object. -/
abbrev GenRaw := List (Option (List Generation)) × Option TokenUsage

/-- The per-prompt cache lookups of `BaseLLM.generate`
(base.ts lines 117-125), in original prompt order. -/
def cacheLookups (store : Store) (key : SerializedOpenAI)
    (prompts : List String) : List (Option (List Generation)) :=
  prompts.map (fun p => storeLookup store p key)

/-- The `missingPromptIndices` of `BaseLLM.generate`: indices whose
lookup came back empty, in ascending order. -/
def missingIndices (lookups : List (Option (List Generation)))
    (n : Nat) : List Nat :=
  (List.range n).filter (fun i => (lookups.getD i none).isNone)

/-- The merge step of `BaseLLM.generate` (lines 133-139): write each
freshly computed generation list into its original slot. -/
def fillGenerations (lookups : List (Option (List Generation)))
    (fills : List (List Generation × Nat)) :
    List (Option (List Generation)) :=
  fills.foldl (fun gs vi => gs.set vi.2 (some vi.1)) lookups

/-- The cache-fill step of `BaseLLM.generate` (line 137): one
`cache.update` per originally-missing prompt. -/
def fillStore (store : Store) (key : SerializedOpenAI)
    (prompts : List String) (fills : List (List Generation × Nat)) : Store :=
  fills.foldl (fun st vi => storeUpdate st (prompts.getD vi.2 "") key vi.1) store

/-- `BaseLLM.generate` for an `OpenAI` instance (base.ts lines 99-144):
with `cache` explicitly `false` the call goes straight to the uncached
path; otherwise the cache key is derived, every prompt is looked up,
the missing prompts are passed in order to the uncached path, the
results are merged back by original index and written to the store.
Returns the outcome, the store afterwards, and the number of network
calls made. -/
def OpenAI.generate (o : OpenAI) (apiKey : Option String)
    (cbm : LLMCallbackManager) (cacheFlag : Option Bool)
    (provider : Provider) (prompts : List String)
    (stop : Option (List String)) (store : Store) :
    Outcome GenRaw × Store × Nat :=
  if cacheFlag = some false then
    match BaseLLM._generateUncached cbm (OpenAI._generate o provider prompts stop) prompts with
    | (.ok res, c) => (.ok (res.generations.map some, res.llmOutput), store, c)
    | (.err e, c) => (.err e, store, c)
    | (.hang, c) => (.hang, store, c)
  else
    let key := llmStringKey o apiKey stop
    let lookups := cacheLookups store key prompts
    let missing := missingIndices lookups prompts.length
    if missing.isEmpty then (.ok (lookups, none), store, 0)
    else
      let missingPrompts := missing.map (fun i => prompts.getD i "")
      match BaseLLM._generateUncached cbm
          (OpenAI._generate o provider missingPrompts stop) missingPrompts with
      | (.ok res, c) =>
        let fills := res.generations.zip missing
        (.ok (fillGenerations lookups fills, res.llmOutput),
         fillStore store key prompts fills, c)
      | (.err e, c) => (.err e, store, c)
      | (.hang, c) => (.hang, store, c)

/-- Modelled from the spec: the Retry Executor (the exponential-backoff
library is not among the sources). Attempt the operation; on failure
retry until the attempt budget is exhausted; surface the last error
unchanged. Delays are not modelled. Returns the result together with
the number of attempts performed. -/
def backOffAux {α : Type} (op : Nat → Except String α) :
    Nat → Nat → Except String α × Nat
  | i, 0 => (op i, 1)
  | i, k + 1 =>
    match op i with
    | .ok a => (.ok a, 1)
    | .error _ =>
      let r := backOffAux op (i + 1) k
      (r.1, r.2 + 1)

/-- Modelled from the spec: `backOff` with `numOfAttempts` total
attempts (at least one attempt is always made, as in the library). -/
def backOff {α : Type} (op : Nat → Except String α)
    (numOfAttempts : Nat) : Except String α × Nat :=
  backOffAux op 0 (numOfAttempts - 1)

/-- `OpenAI.completionWithRetry` (lines 331-355): wrap one network
operation in `backOff` with `numOfAttempts := this.maxRetries`. -/
def OpenAI.completionWithRetry {α : Type} (o : OpenAI)
    (op : Nat → Except String α) : Except String α × Nat :=
  backOff op o.maxRetries

/-- `PromptLayerOpenAI.completionWithRetry` (lines 407-436): streamed
requests are passed through; otherwise the base call runs first and the
track-request POST is awaited, so a failure of that POST fails the
whole call. -/
def PromptLayerOpenAI.completionWithRetry {α : Type}
    (stream : Bool) (base : Except String α)
    (track : Except String Unit) : Except String α :=
  if stream then base
  else
    match base with
    | .ok d =>
      match track with
      | .error e => .error e
      | .ok _ => .ok d
    | .error e => .error e

/-- Modelled from the spec: the Concurrency Limiter (`p-queue` is not
among the sources). State of the limiter: FIFO waiting queue, set of
running task ids, and logs of enqueued and admitted ids. -/
structure QState where
  waiting : List Nat := []
  running : List Nat := []
  admitted : List Nat := []
  enqueued : List Nat := []
deriving Repr, DecidableEq

/-- Events of the limiter: submit a task, admit the head of the queue,
finish a running task. -/
inductive QEvent where
  | enq : Nat → QEvent
  | adm : QEvent
  | fin : Nat → QEvent
deriving Repr, DecidableEq

/-- Modelled from the spec: one limiter transition. A task is admitted
only from the head of the waiting queue and only when fewer than
`concurrency` tasks are running (`none` models the unbounded default). -/
def qstep (k : Option Nat) (s : QState) : QEvent → Option QState
  | .enq i =>
    some { s with waiting := s.waiting ++ [i], enqueued := s.enqueued ++ [i] }
  | .adm =>
    match s.waiting with
    | [] => none
    | i :: rest =>
      let room :=
        match k with
        | none => true
        | some kk => decide (s.running.length < kk)
      if room then
        some { s with waiting := rest, running := s.running ++ [i],
                      admitted := s.admitted ++ [i] }
      else none
  | .fin i =>
    if i ∈ s.running then some { s with running := s.running.erase i } else none

/-- Run the limiter over a list of events from a given state. -/
def qrun (k : Option Nat) : QState → List QEvent → Option QState
  | s, [] => some s
  | s, e :: rest =>
    match qstep k s e with
    | some s2 => qrun k s2 rest
    | none => none

/-- The empty limiter state. -/
def qinit : QState := {}

/-! Helper lemmas about the modelled `chunkArray`. -/

lemma chunkArrayAux_nil {α : Type} (fuel k : Nat) :
    chunkArrayAux (α := α) fuel [] k = [] := by
  cases fuel <;> rfl

lemma chunkArrayAux_cons_unfold {α : Type} (f k : Nat) (xs : List α)
    (hx : xs ≠ []) (hk : k ≠ 0) :
    chunkArrayAux (f + 1) xs k = xs.take k :: chunkArrayAux f (xs.drop k) k := by
  cases xs with
  | nil => exact absurd rfl hx
  | cons a t => simp [chunkArrayAux, hk]

lemma chunkArrayAux_flatten {α : Type} {k : Nat} (hk : 0 < k) :
    ∀ (fuel : Nat) (xs : List α), xs.length ≤ fuel →
      (chunkArrayAux fuel xs k).flatten = xs := by
  intro fuel
  induction fuel with
  | zero =>
    intro xs h
    have hx : xs = [] := by cases xs with | nil => rfl | cons a t => simp at h
    subst hx
    simp [chunkArrayAux_nil]
  | succ f ih =>
    intro xs h
    cases xs with
    | nil => simp [chunkArrayAux_nil]
    | cons x t =>
      rw [chunkArrayAux_cons_unfold f k (x :: t) (by simp) (by omega)]
      rw [List.flatten_cons]
      rw [ih ((x :: t).drop k) (by rw [List.length_drop]; simp at h ⊢; omega)]
      exact List.take_append_drop k (x :: t)

lemma chunkArray_flatten {α : Type} {k : Nat} (hk : 0 < k) (xs : List α) :
    (chunkArray xs k).flatten = xs :=
  chunkArrayAux_flatten hk xs.length xs le_rfl

lemma chunkArrayAux_length {α : Type} {k : Nat} (hk : 0 < k) :
    ∀ (fuel : Nat) (xs : List α), xs.length ≤ fuel →
      (chunkArrayAux fuel xs k).length = (xs.length + k - 1) / k := by
  intro fuel
  induction fuel with
  | zero =>
    intro xs h
    have hx : xs = [] := by cases xs with | nil => rfl | cons a t => simp at h
    subst hx
    simp [chunkArrayAux_nil]
    exact (Nat.div_eq_of_lt (by omega)).symm
  | succ f ih =>
    intro xs h
    cases xs with
    | nil =>
      simp [chunkArrayAux_nil]
      exact (Nat.div_eq_of_lt (by omega)).symm
    | cons x t =>
      rw [chunkArrayAux_cons_unfold f k (x :: t) (by simp) (by omega)]
      rw [List.length_cons, ih ((x :: t).drop k)
        (by rw [List.length_drop]; simp at h ⊢; omega)]
      rw [List.length_drop]
      have hm1 : 1 ≤ (x :: t).length := by simp
      by_cases hc : (x :: t).length ≤ k
      · have h1 : (x :: t).length - k = 0 := by omega
        rw [h1]
        have l0 : (0 + k - 1 : Nat) / k = 0 := Nat.div_eq_of_lt (by omega)
        rw [l0]
        have e : (x :: t).length + k - 1 = ((x :: t).length - 1) + k := by omega
        rw [e, Nat.add_div_right _ hk, Nat.div_eq_of_lt (by omega)]
      · push_neg at hc
        have e1 : (x :: t).length - k + k - 1 = ((x :: t).length - k - 1) + k := by omega
        have e2 : (x :: t).length + k - 1 = ((x :: t).length - 1) + k := by omega
        rw [e1, e2, Nat.add_div_right _ hk, Nat.add_div_right _ hk]
        have e3 : k ≤ (x :: t).length - 1 := by omega
        rw [Nat.div_eq_sub_div hk e3]
        have e4 : (x :: t).length - 1 - k = (x :: t).length - k - 1 := by omega
        rw [e4]

lemma chunkArray_length {α : Type} {k : Nat} (hk : 0 < k) (xs : List α) :
    (chunkArray xs k).length = (xs.length + k - 1) / k :=
  chunkArrayAux_length hk xs.length xs le_rfl

lemma chunkArrayAux_mem {α : Type} {k : Nat} (hk : 0 < k) :
    ∀ (fuel : Nat) (xs : List α), xs.length ≤ fuel →
      ∀ c ∈ chunkArrayAux fuel xs k, c.length ≤ k ∧ c ≠ [] := by
  intro fuel
  induction fuel with
  | zero =>
    intro xs h c hc
    have hx : xs = [] := by cases xs with | nil => rfl | cons a t => simp at h
    subst hx
    simp [chunkArrayAux_nil] at hc
  | succ f ih =>
    intro xs h c hc
    cases xs with
    | nil => simp [chunkArrayAux_nil] at hc
    | cons x t =>
      rw [chunkArrayAux_cons_unfold f k (x :: t) (by simp) (by omega)] at hc
      rcases List.mem_cons.mp hc with hc1 | hc2
      · subst hc1
        constructor
        · rw [List.length_take]; omega
        · have : ((x :: t).take k).length = min k (x :: t).length := List.length_take ..
          intro hnil
          rw [hnil] at this
          simp at this
          omega
      · exact ih ((x :: t).drop k)
          (by rw [List.length_drop]; simp at h ⊢; omega) c hc2

lemma chunkArray_mem {α : Type} {k : Nat} (hk : 0 < k) (xs : List α) :
    ∀ c ∈ chunkArray xs k, c.length ≤ k ∧ c ≠ [] :=
  chunkArrayAux_mem hk xs.length xs le_rfl

lemma chunkArrayAux_dropLast {α : Type} {k : Nat} (hk : 0 < k) :
    ∀ (fuel : Nat) (xs : List α), xs.length ≤ fuel →
      ∀ c ∈ (chunkArrayAux fuel xs k).dropLast, c.length = k := by
  intro fuel
  induction fuel with
  | zero =>
    intro xs h c hc
    have hx : xs = [] := by cases xs with | nil => rfl | cons a t => simp at h
    subst hx
    simp [chunkArrayAux_nil] at hc
  | succ f ih =>
    intro xs h c hc
    cases xs with
    | nil => simp [chunkArrayAux_nil] at hc
    | cons x t =>
      rw [chunkArrayAux_cons_unfold f k (x :: t) (by simp) (by omega)] at hc
      cases hR : chunkArrayAux f ((x :: t).drop k) k with
      | nil => rw [hR] at hc; simp at hc
      | cons r rs =>
        rw [hR] at hc
        rw [List.dropLast_cons₂] at hc
        have hdrop_ne : (x :: t).drop k ≠ [] := by
          intro hdn
          rw [hdn, chunkArrayAux_nil] at hR
          exact List.cons_ne_nil r rs hR.symm
        have hklt : k < (x :: t).length := by
          by_contra hk2
          push_neg at hk2
          exact hdrop_ne (List.drop_eq_nil_of_le hk2)
        rcases List.mem_cons.mp hc with hc1 | hc2
        · subst hc1
          rw [List.length_take]
          omega
        · have := ih ((x :: t).drop k)
            (by rw [List.length_drop]; simp at h ⊢; omega) c
          rw [hR] at this
          exact this hc2

lemma chunkArray_dropLast {α : Type} {k : Nat} (hk : 0 < k) (xs : List α) :
    ∀ c ∈ (chunkArray xs k).dropLast, c.length = k :=
  chunkArrayAux_dropLast hk xs.length xs le_rfl

lemma chunkArrayAux_regroup {α : Type} {n : Nat} (hn : 0 < n) :
    ∀ (L : List (List α)) (fuel : Nat), (∀ l ∈ L, l.length = n) →
      L.flatten.length ≤ fuel → chunkArrayAux fuel L.flatten n = L := by
  intro L
  induction L with
  | nil => intro fuel _ _; simp [chunkArrayAux_nil]
  | cons l L ih =>
    intro fuel hlen hfuel
    have hl : l.length = n := hlen l (by simp)
    have hlne : l ≠ [] := by
      intro hnil
      rw [hnil] at hl
      simp at hl
      omega
    rw [List.flatten_cons] at hfuel ⊢
    have hfl_ne : l ++ L.flatten ≠ [] := by
      intro hnil
      exact hlne (List.append_eq_nil.mp hnil).1
    cases fuel with
    | zero =>
      exfalso
      have := List.length_pos.mpr hfl_ne
      omega
    | succ f =>
      rw [chunkArrayAux_cons_unfold f n (l ++ L.flatten) hfl_ne (by omega)]
      have htake : (l ++ L.flatten).take n = l := by
        rw [← hl]; exact List.take_left ..
      have hdrop : (l ++ L.flatten).drop n = L.flatten := by
        rw [← hl]; exact List.drop_left ..
      rw [htake, hdrop]
      congr 1
      apply ih f (fun l2 hl2 => hlen l2 (List.mem_cons_of_mem l hl2))
      rw [List.length_append] at hfuel
      omega

lemma chunkArray_regroup {α : Type} {n : Nat} (hn : 0 < n)
    (L : List (List α)) (hlen : ∀ l ∈ L, l.length = n) :
    chunkArray L.flatten n = L :=
  chunkArrayAux_regroup hn L L.flatten.length hlen le_rfl

lemma flatten_map_flatten {β γ : Type} (L : List (List β)) (f : β → List γ) :
    (L.map (fun sb => (sb.map f).flatten)).flatten = (L.flatten.map f).flatten := by
  induction L with
  | nil => rfl
  | cons l L ih =>
    simp only [List.map_cons, List.flatten_cons, List.map_append,
      List.flatten_append, ih]

/-! Helper lemmas about the merge step and the uncached path. -/

lemma getElem?_eq_none_of_le {α : Type} (l : List α) (j : Nat)
    (h : l.length ≤ j) : l[j]? = none := by
  rw [List.getElem?_eq_none_iff]
  exact h

lemma fillGenerations_length (fills : List (List Generation × Nat))
    (lookups : List (Option (List Generation))) :
    (fillGenerations lookups fills).length = lookups.length := by
  induction fills generalizing lookups with
  | nil => rfl
  | cons hd tl ih =>
    simp only [fillGenerations, List.foldl_cons] at ih ⊢
    rw [ih]
    exact List.length_set ..

lemma foldl_set_getElem {α : Type} (g : Nat → α) :
    ∀ (idxs : List Nat) (base : List α), idxs.Nodup → ∀ (j : Nat),
      (idxs.foldl (fun gs i => gs.set i (g i)) base)[j]? =
        if j ∈ idxs ∧ j < base.length then some (g j) else base[j]? := by
  intro idxs
  induction idxs with
  | nil =>
    intro base _ j
    simp
  | cons i0 rest ih =>
    intro base hnd j
    have hnd' := List.nodup_cons.mp hnd
    simp only [List.foldl_cons]
    rw [ih (base.set i0 (g i0)) hnd'.2 j, List.length_set]
    by_cases hjr : j ∈ rest
    · have hjc : j ∈ i0 :: rest := List.mem_cons_of_mem _ hjr
      by_cases hlt : j < base.length
      · rw [if_pos ⟨hjr, hlt⟩, if_pos ⟨hjc, hlt⟩]
      · rw [if_neg (fun h => hlt h.2), if_neg (fun h => hlt h.2)]
        rw [getElem?_eq_none_of_le _ _ (by rw [List.length_set]; omega),
          getElem?_eq_none_of_le _ _ (by omega)]
    · rw [if_neg (show ¬(j ∈ rest ∧ j < base.length) from fun h => hjr h.1)]
      by_cases hj0 : j = i0
      · subst hj0
        by_cases hlt : j < base.length
        · rw [if_pos ⟨List.mem_cons_self .., hlt⟩]
          rw [List.getElem?_set]
          simp [hlt]
        · rw [if_neg (show ¬(j ∈ j :: rest ∧ j < base.length) from
            fun h => hlt h.2)]
          rw [getElem?_eq_none_of_le _ _ (by rw [List.length_set]; omega),
            getElem?_eq_none_of_le _ _ (by omega)]
      · have hjc : ¬ j ∈ i0 :: rest := by
          intro h
          rcases List.mem_cons.mp h with h1 | h2
          · exact hj0 h1
          · exact hjr h2
        rw [if_neg (show ¬(j ∈ i0 :: rest ∧ j < base.length) from
          fun h => hjc h.1)]
        rw [List.getElem?_set]
        rw [if_neg (show ¬ i0 = j from fun h => hj0 h.symm)]

lemma cacheLookups_getD (store : Store) (key : SerializedOpenAI)
    (prompts : List String) (i : Nat) (h : i < prompts.length) :
    (cacheLookups store key prompts).getD i none =
      storeLookup store (prompts.getD i "") key := by
  simp [cacheLookups, List.getD_eq_getElem?_getD, List.getElem?_map,
    List.getElem?_eq_getElem h]

lemma mem_missingIndices (lookups : List (Option (List Generation)))
    (n j : Nat) :
    j ∈ missingIndices lookups n ↔ j < n ∧ (lookups.getD j none).isNone := by
  simp [missingIndices, List.mem_filter, List.mem_range]

lemma missingIndices_nodup (lookups : List (Option (List Generation)))
    (n : Nat) : (missingIndices lookups n).Nodup :=
  (List.nodup_range n).filter _

lemma uncached_hooks_ok (cbm : LLMCallbackManager)
    (inner : Outcome LLMResult × Nat) (prompts : List String)
    (h1 : cbm.handleStart prompts = .ok ())
    (h2 : ∀ r, cbm.handleEnd r = .ok ())
    (h3 : ∀ e, cbm.handleError e = .ok ()) :
    BaseLLM._generateUncached cbm inner prompts = inner := by
  unfold BaseLLM._generateUncached
  obtain ⟨out, c⟩ := inner
  rw [h1]
  cases out with
  | ok res => dsimp only; rw [h2 res]
  | err e => dsimp only; rw [h3 e]
  | hang => rfl

lemma uncached_default (inner : Outcome LLMResult × Nat)
    (prompts : List String) :
    BaseLLM._generateUncached getCallbackManager inner prompts = inner :=
  uncached_hooks_ok _ _ _ rfl (fun _ => rfl) (fun _ => rfl)

lemma generateLoop_nostream (o : OpenAI) (provider : Provider)
    (effStop : Option (List String)) (hs : o.streaming = false) :
    ∀ (subs : List (List String)) (acc : List Choice) (usage : TokenUsage)
      (calls : Nat),
      generateLoop o provider effStop subs acc usage calls =
        (.ok (acc ++ (subs.map (fun sb => (provider effStop sb).choices)).flatten,
              subs.foldl (fun u sb => addUsage u ((provider effStop sb).usage.getD {})) usage),
         calls + subs.length) := by
  intro subs
  induction subs with
  | nil =>
    intro acc usage calls
    simp [generateLoop]
  | cons sb rest ih =>
    intro acc usage calls
    rw [generateLoop]
    simp only [hs, Bool.false_eq_true, if_false]
    rw [ih]
    simp [List.append_assoc, Nat.add_assoc, Nat.add_comm, Nat.add_left_comm]

lemma generate_inner_spec (o : OpenAI) (provider : Provider)
    (perPrompt : String → List Choice) (prompts : List String)
    (stop : Option (List String))
    (hs : o.streaming = false) (hn : 0 < o.n) (hb : 0 < o.batchSize)
    (hc : ∀ sb, (provider (effectiveStop o stop) sb).choices = (sb.map perPrompt).flatten)
    (hl : ∀ p, (perPrompt p).length = o.n)
    (hstop : ¬(o.stop.isSome = true ∧ stop.isSome = true)) :
    OpenAI._generate o provider prompts stop =
      (.ok ⟨prompts.map (fun p => (perPrompt p).map toGeneration),
            some ((chunkArray prompts o.batchSize).foldl
              (fun u sb => addUsage u ((provider (effectiveStop o stop) sb).usage.getD {})) {})⟩,
       (chunkArray prompts o.batchSize).length) := by
  unfold OpenAI._generate
  rw [if_neg hstop]
  rw [generateLoop_nostream o provider _ hs]
  dsimp only
  have hchoices :
      ((chunkArray prompts o.batchSize).map
        (fun sb => (provider (effectiveStop o stop) sb).choices)).flatten =
      (prompts.map perPrompt).flatten := by
    rw [List.map_congr_left (fun sb _ => hc sb)]
    rw [flatten_map_flatten, chunkArray_flatten hb]
  simp only [List.nil_append]
  rw [hchoices]
  have hregroup : chunkArray ((prompts.map perPrompt).flatten) o.n =
      prompts.map perPrompt := by
    apply chunkArray_regroup hn
    intro l hl2
    obtain ⟨p, _, rfl⟩ := List.mem_map.mp hl2
    exact hl p
  rw [hregroup, List.map_map]
  simp [Function.comp]

lemma cacheLookups_eq_range_map (store : Store) (key : SerializedOpenAI)
    (prompts : List String) :
    cacheLookups store key prompts =
      (List.range prompts.length).map
        (fun i => storeLookup store (prompts.getD i "") key) := by
  apply List.ext_getElem?
  intro j
  rw [cacheLookups, List.getElem?_map, List.getElem?_map]
  by_cases hj : j < prompts.length
  · rw [List.getElem?_eq_getElem hj, List.getElem?_range hj]
    simp [List.getD_eq_getElem?_getD, List.getElem?_eq_getElem hj]
  · rw [getElem?_eq_none_of_le _ _ (by omega),
      getElem?_eq_none_of_le _ _ (by simp; omega)]
    rfl

lemma cacheLookups_length (store : Store) (key : SerializedOpenAI)
    (prompts : List String) :
    (cacheLookups store key prompts).length = prompts.length :=
  List.length_map ..

lemma generate_cached_spec (o : OpenAI) (apiKey : Option String)
    (provider : Provider) (perPrompt : String → List Choice)
    (prompts : List String) (stop : Option (List String)) (store : Store)
    (cacheFlag : Option Bool) (hcf : ¬ cacheFlag = some false)
    (hs : o.streaming = false) (hn : 0 < o.n) (hb : 0 < o.batchSize)
    (hc : ∀ sb, (provider (effectiveStop o stop) sb).choices = (sb.map perPrompt).flatten)
    (hl : ∀ p, (perPrompt p).length = o.n)
    (hstop : ¬(o.stop.isSome = true ∧ stop.isSome = true)) :
    ∃ (u : Option TokenUsage) (store2 : Store) (calls : Nat),
      OpenAI.generate o apiKey getCallbackManager cacheFlag provider prompts stop store =
        (.ok ((List.range prompts.length).map (fun i =>
          some ((storeLookup store (prompts.getD i "") (llmStringKey o apiKey stop)).getD
            ((perPrompt (prompts.getD i "")).map toGeneration))), u),
         store2, calls) := by
  unfold OpenAI.generate
  rw [if_neg hcf]
  dsimp only
  set key := llmStringKey o apiKey stop with hkey
  set lookups := cacheLookups store key prompts with hlookups
  set miss := missingIndices lookups prompts.length with hmiss
  by_cases hemp : miss.isEmpty = true
  · rw [if_pos hemp]
    refine ⟨none, store, 0, ?_⟩
    have hall : ∀ i, i < prompts.length →
        (storeLookup store (prompts.getD i "") key).isSome := by
      intro i hi
      have hnotmem : ¬ i ∈ miss := by
        rw [List.isEmpty_iff] at hemp
        rw [hemp]
        simp
      rw [hmiss, mem_missingIndices] at hnotmem
      push_neg at hnotmem
      have := hnotmem hi
      rw [hlookups, cacheLookups_getD store key prompts i hi] at this
      simp only [Bool.not_eq_true, Option.isNone_eq_false_iff] at this
      exact this
    have hlist : lookups = (List.range prompts.length).map (fun i =>
        some ((storeLookup store (prompts.getD i "") key).getD
          ((perPrompt (prompts.getD i "")).map toGeneration))) := by
      rw [hlookups, cacheLookups_eq_range_map]
      apply List.map_congr_left
      intro i hi
      rw [List.mem_range] at hi
      obtain ⟨g, hg⟩ := Option.isSome_iff_exists.mp (hall i hi)
      rw [hg]
      rfl
    rw [hlist]
  · rw [if_neg hemp]
    rw [uncached_default]
    rw [generate_inner_spec o provider perPrompt
      (miss.map (fun i => prompts.getD i "")) stop hs hn hb hc hl hstop]
    dsimp only
    refine ⟨some ((chunkArray (miss.map (fun i => prompts.getD i "")) o.batchSize).foldl
        (fun u sb => addUsage u ((provider (effectiveStop o stop) sb).usage.getD {})) {}),
      fillStore store key prompts
        (((miss.map (fun i => prompts.getD i "")).map
          (fun p => (perPrompt p).map toGeneration)).zip miss),
      (chunkArray (miss.map (fun i => prompts.getD i "")) o.batchSize).length, ?_⟩
    have hfills :
        ((miss.map (fun i => prompts.getD i "")).map
            (fun p => (perPrompt p).map toGeneration)).zip miss =
          miss.map (fun i =>
            ((perPrompt (prompts.getD i "")).map toGeneration, i)) := by
      rw [List.map_map]
      have h1 := List.zip_map'
        (fun i => (perPrompt (prompts.getD i "")).map toGeneration) id miss
      simpa using h1
    have hgens : fillGenerations lookups
        (((miss.map (fun i => prompts.getD i "")).map
          (fun p => (perPrompt p).map toGeneration)).zip miss) =
        (List.range prompts.length).map (fun i =>
          some ((storeLookup store (prompts.getD i "") key).getD
            ((perPrompt (prompts.getD i "")).map toGeneration))) := by
      rw [hfills]
      unfold fillGenerations
      rw [List.foldl_map]
      apply List.ext_getElem?
      intro j
      rw [foldl_set_getElem
        (fun i => some ((perPrompt (prompts.getD i "")).map toGeneration))
        miss lookups (hmiss ▸ missingIndices_nodup lookups prompts.length) j]
      rw [hlookups, cacheLookups_length]
      by_cases hj : j < prompts.length
      · rw [List.getElem?_map, List.getElem?_range hj, Option.map_some']
        by_cases hjm : j ∈ miss
        · rw [if_pos ⟨hjm, hj⟩]
          have hnone : storeLookup store (prompts.getD j "") key = none := by
            have := (hmiss ▸ (mem_missingIndices lookups prompts.length j)).mp hjm
            rw [hlookups, cacheLookups_getD store key prompts j hj] at this
            simpa using this.2
          rw [hnone]
          rfl
        · rw [if_neg (show ¬(j ∈ miss ∧ j < prompts.length) from
            fun h => hjm h.1)]
          have hsome : (storeLookup store (prompts.getD j "") key).isSome := by
            have hnm := hjm
            rw [hmiss, mem_missingIndices] at hnm
            push_neg at hnm
            have := hnm hj
            rw [hlookups, cacheLookups_getD store key prompts j hj] at this
            simp only [Bool.not_eq_true, Option.isNone_eq_false_iff] at this
            exact this
          obtain ⟨g, hg⟩ := Option.isSome_iff_exists.mp hsome
          rw [cacheLookups_eq_range_map, List.getElem?_map,
            List.getElem?_range hj, Option.map_some', hg]
          rfl
      · rw [if_neg (fun h => hj h.2)]
        rw [getElem?_eq_none_of_le _ _ (by rw [cacheLookups_length]; omega),
          getElem?_eq_none_of_le _ _ (by simp; omega)]
    rw [hgens]

lemma storeLookup_update (st : Store) (p : String) (k : SerializedOpenAI)
    (g : List Generation) (q : String) (kq : SerializedOpenAI) :
    storeLookup (storeUpdate st p k g) q kq =
      if q = p ∧ kq = k then some g else storeLookup st q kq := by
  unfold storeLookup storeUpdate
  by_cases h : q = p ∧ kq = k
  · rw [if_pos h]
    rw [List.find?_cons_of_pos _ (by simp [h.1.symm, h.2.symm])]
    rfl
  · rw [if_neg h]
    rw [List.find?_cons_of_neg _ (by
      simp only [decide_eq_true_eq]
      intro hcon
      exact h ⟨hcon.1.symm, hcon.2.symm⟩)]

lemma chunkArray_single {α : Type} (x : α) (k : Nat) (hk : 0 < k) :
    chunkArray [x] k = [[x]] := by
  unfold chunkArray
  rw [show ([x] : List α).length = 1 from rfl]
  rw [chunkArrayAux_cons_unfold 0 k [x] (by simp) (by omega)]
  rw [List.take_of_length_le (by simp; omega),
    List.drop_eq_nil_of_le (by simp; omega)]
  rfl

lemma generate_single_hit (o : OpenAI) (apiKey : Option String)
    (provider : Provider) (p : String) (stop : Option (List String))
    (store : Store) (g : List Generation) (cacheFlag : Option Bool)
    (hcf : ¬ cacheFlag = some false)
    (hg : storeLookup store p (llmStringKey o apiKey stop) = some g) :
    OpenAI.generate o apiKey getCallbackManager cacheFlag provider [p] stop store =
      (.ok ([some g], none), store, 0) := by
  unfold OpenAI.generate
  rw [if_neg hcf]
  dsimp only
  have hlook : cacheLookups store (llmStringKey o apiKey stop) [p] = [some g] := by
    simp [cacheLookups, hg]
  rw [hlook]
  have hm : missingIndices [some g] ([p].length) = [] := by
    simp [missingIndices, List.range_succ]
  rw [hm]
  rfl

lemma generate_single_miss (o : OpenAI) (apiKey : Option String)
    (provider : Provider) (perPrompt : String → List Choice) (p : String)
    (stop : Option (List String)) (store : Store) (cacheFlag : Option Bool)
    (hcf : ¬ cacheFlag = some false)
    (hs : o.streaming = false) (hn : 0 < o.n) (hb : 0 < o.batchSize)
    (hc : ∀ sb, (provider (effectiveStop o stop) sb).choices = (sb.map perPrompt).flatten)
    (hl : ∀ q, (perPrompt q).length = o.n)
    (hstop : ¬(o.stop.isSome = true ∧ stop.isSome = true))
    (hm : storeLookup store p (llmStringKey o apiKey stop) = none) :
    OpenAI.generate o apiKey getCallbackManager cacheFlag provider [p] stop store =
      (.ok ([some ((perPrompt p).map toGeneration)],
            some (addUsage {} ((provider (effectiveStop o stop) [p]).usage.getD {}))),
       storeUpdate store p (llmStringKey o apiKey stop) ((perPrompt p).map toGeneration),
       1) := by
  unfold OpenAI.generate
  rw [if_neg hcf]
  dsimp only
  have hlook : cacheLookups store (llmStringKey o apiKey stop) [p] = [none] := by
    simp [cacheLookups, hm]
  rw [hlook]
  have hmidx : missingIndices [none] ([p].length) = [0] := by
    simp [missingIndices, List.range_succ]
  rw [hmidx]
  rw [if_neg (by simp)]
  have hmp : ([0].map (fun i => [p].getD i "")) = [p] := by simp
  rw [hmp]
  rw [uncached_default]
  rw [generate_inner_spec o provider perPrompt [p] stop hs hn hb hc hl hstop]
  dsimp only
  rw [chunkArray_single p o.batchSize hb]
  simp [fillGenerations, fillStore]

lemma generate_single_uncached (o : OpenAI) (apiKey : Option String)
    (provider : Provider) (perPrompt : String → List Choice) (p : String)
    (stop : Option (List String)) (store : Store)
    (hs : o.streaming = false) (hn : 0 < o.n) (hb : 0 < o.batchSize)
    (hc : ∀ sb, (provider (effectiveStop o stop) sb).choices = (sb.map perPrompt).flatten)
    (hl : ∀ q, (perPrompt q).length = o.n)
    (hstop : ¬(o.stop.isSome = true ∧ stop.isSome = true)) :
    OpenAI.generate o apiKey getCallbackManager (some false) provider [p] stop store =
      (.ok ([some ((perPrompt p).map toGeneration)],
            some (addUsage {} ((provider (effectiveStop o stop) [p]).usage.getD {}))),
       store, 1) := by
  unfold OpenAI.generate
  rw [if_pos rfl]
  rw [uncached_default]
  rw [generate_inner_spec o provider perPrompt [p] stop hs hn hb hc hl hstop]
  dsimp only
  rw [chunkArray_single p o.batchSize hb]
  rfl

/-! Concrete instances used by witnesses and counterexamples. -/

/-- A callback manager whose start hook throws. -/
def throwingStartManager : LLMCallbackManager :=
  ⟨fun _ => .error "boom", fun _ => .ok (), fun _ => .ok ()⟩

/-- An echo provider: one choice per prompt whose text is the prompt. -/
def echoPerPrompt (p : String) : List Choice := [⟨some p, none, none⟩]

/-- Provider oracle built from `echoPerPrompt`: a sub-batch of k prompts
yields k choices, in prompt order. -/
def echoProvider : Provider :=
  fun _ sb => { choices := (sb.map echoPerPrompt).flatten }

/-- Event stream delivering the fragments "Hel" and "lo" and then the
terminal sentinel. -/
def helloEvents : List SSE :=
  [.chunk [⟨some "Hel", none, none⟩],
   .chunk [⟨some "lo", some "stop", none⟩],
   .done]

/-- Streaming stub provider for the equivalence check. -/
def helloStreamProvider : Provider := fun _ _ => { events := helloEvents }

/-- Non-streaming stub provider returning the single text "Hello". -/
def helloPlainProvider : Provider :=
  fun _ _ => { choices := [⟨some "Hello", some "stop", none⟩] }

/-! Limiter invariant. -/

lemma qrun_inv (kk : Nat) :
    ∀ (evs : List QEvent) (s s' : QState),
      qrun (some kk) s evs = some s' →
      s.running.length ≤ kk → s.enqueued = s.admitted ++ s.waiting →
      s'.running.length ≤ kk ∧ s'.enqueued = s'.admitted ++ s'.waiting := by
  intro evs
  induction evs with
  | nil =>
    intro s s' h h1 h2
    rw [qrun] at h
    injection h with h
    subst h
    exact ⟨h1, h2⟩
  | cons e rest ih =>
    intro s s' h h1 h2
    rw [qrun] at h
    cases hstep : qstep (some kk) s e with
    | none => rw [hstep] at h; exact absurd h (by simp)
    | some s2 =>
      rw [hstep] at h
      apply ih s2 s' h
      case a =>
        cases e with
        | enq i =>
          rw [qstep] at hstep
          injection hstep with hstep
          subst hstep
          exact h1
        | adm =>
          rw [qstep] at hstep
          cases hw : s.waiting with
          | nil => rw [hw] at hstep; exact absurd hstep (by simp)
          | cons i rest2 =>
            rw [hw] at hstep
            dsimp only at hstep
            by_cases hroom : s.running.length < kk
            · rw [if_pos (by simp [hroom])] at hstep
              injection hstep with hstep
              subst hstep
              simp only [List.length_append, List.length_cons, List.length_nil]
              omega
            · rw [if_neg (by simp [hroom])] at hstep
              exact absurd hstep (by simp)
        | fin i =>
          rw [qstep] at hstep
          by_cases hmem : i ∈ s.running
          · rw [if_pos hmem] at hstep
            injection hstep with hstep
            subst hstep
            have := (s.running.erase_sublist i).length_le
            simp only []
            omega
          · rw [if_neg hmem] at hstep
            exact absurd hstep (by simp)
      case a =>
        cases e with
        | enq i =>
          rw [qstep] at hstep
          injection hstep with hstep
          subst hstep
          simp only []
          rw [h2, List.append_assoc]
        | adm =>
          rw [qstep] at hstep
          cases hw : s.waiting with
          | nil => rw [hw] at hstep; exact absurd hstep (by simp)
          | cons i rest2 =>
            rw [hw] at hstep
            dsimp only at hstep
            by_cases hroom : s.running.length < kk
            · rw [if_pos (by simp [hroom])] at hstep
              injection hstep with hstep
              subst hstep
              simp only []
              rw [h2, hw, List.append_assoc]
              simp
            · rw [if_neg (by simp [hroom])] at hstep
              exact absurd hstep (by simp)
        | fin i =>
          rw [qstep] at hstep
          by_cases hmem : i ∈ s.running
          · rw [if_pos hmem] at hstep
            injection hstep with hstep
            subst hstep
            exact h2
          · rw [if_neg hmem] at hstep
            exact absurd hstep (by simp)

/-! Retry model facts. -/

lemma backOffAux_all_fail {α : Type} (op : Nat → Except String α)
    (e : Nat → String) (hop : ∀ i, op i = .error (e i)) :
    ∀ (k i : Nat), backOffAux op i k = (.error (e (i + k)), k + 1) := by
  intro k
  induction k with
  | zero => intro i; simp [backOffAux, hop i]
  | succ k ih =>
    intro i
    rw [backOffAux, hop i]
    dsimp only
    rw [ih (i + 1)]
    have : i + 1 + k = i + (k + 1) := by omega
    rw [this]

/-! Claim theorems. -/

/-- Claim C3 (code bug): the cache key is derived from the serialized
parameters with `stop` overwritten by the call argument, so two
instances whose constructor stop lists differ (effective stop lists
differ) derive the same cache key when called without a stop argument,
and the same effective stop list reached via constructor versus call
argument derives two different keys. -/
theorem claim3_cache_key_bug :
    llmStringKey { OpenAI.defaults with stop := some ["a"] } (some "k") none =
      llmStringKey { OpenAI.defaults with stop := some ["b"] } (some "k") none ∧
    effectiveStop { OpenAI.defaults with stop := some ["a"] } none ≠
      effectiveStop { OpenAI.defaults with stop := some ["b"] } none ∧
    llmStringKey OpenAI.defaults (some "k") (some ["a"]) ≠
      llmStringKey { OpenAI.defaults with stop := some ["a"] } (some "k") none ∧
    effectiveStop OpenAI.defaults (some ["a"]) =
      effectiveStop { OpenAI.defaults with stop := some ["a"] } none := by
  decide

/-- Claim C4 (amended): the observability hooks are transparent only
when they do not throw. When every hook returns successfully the
uncached path returns exactly the inner outcome; a throwing start hook
fails the call before any network activity; a failing track-request
POST fails a successful non-streamed PromptLayer call. -/
theorem claim4_hooks_amended :
    (∀ (cbm : LLMCallbackManager) (inner : Outcome LLMResult × Nat)
       (prompts : List String),
      cbm.handleStart prompts = .ok () → (∀ r, cbm.handleEnd r = .ok ()) →
      (∀ e, cbm.handleError e = .ok ()) →
      BaseLLM._generateUncached cbm inner prompts = inner) ∧
    (∀ (cbm : LLMCallbackManager) (inner : Outcome LLMResult × Nat)
       (prompts : List String) (e : String),
      cbm.handleStart prompts = .error e →
      BaseLLM._generateUncached cbm inner prompts = (.err e, 0)) ∧
    (∀ (d e : String),
      PromptLayerOpenAI.completionWithRetry false (.ok d) (.error e) = .error e) := by
  refine ⟨uncached_hooks_ok, ?_, ?_⟩
  · intro cbm inner prompts e h
    unfold BaseLLM._generateUncached
    rw [h]
  · intro d e
    rfl

/-- Claim C4 witness: the amended statement at concrete inputs. -/
theorem claim4_hooks_amended_witness :
    BaseLLM._generateUncached getCallbackManager
      (.ok ⟨[[⟨"hi", none, none⟩]], none⟩, 1) ["p"] =
      (.ok ⟨[[⟨"hi", none, none⟩]], none⟩, 1) ∧
    BaseLLM._generateUncached throwingStartManager
      (.ok ⟨[[⟨"hi", none, none⟩]], none⟩, 1) ["p"] = (.err "boom", 0) ∧
    PromptLayerOpenAI.completionWithRetry false (.ok "resp") (.error "down") =
      .error "down" :=
  ⟨claim4_hooks_amended.1 getCallbackManager _ ["p"] rfl (fun _ => rfl) (fun _ => rfl),
   claim4_hooks_amended.2.1 throwingStartManager _ ["p"] "boom" rfl,
   claim4_hooks_amended.2.2 "resp" "down"⟩

/-- Claim C4 counterexample: a throwing start hook makes `generate`
fail although the identical call with the default (no-op) hooks
succeeds, so a hook failure is propagated to the caller. -/
theorem claim4_counterexample :
    (OpenAI.generate OpenAI.defaults (some "k") throwingStartManager (some false)
      echoProvider ["p"] none []).1 = .err "boom" ∧
    (OpenAI.generate OpenAI.defaults (some "k") getCallbackManager (some false)
      echoProvider ["p"] none []).1 =
      .ok ([some [⟨"p", none, none⟩]], some {}) := by
  decide

/-- Claim C6: a network call failing on every attempt is attempted
exactly `maxRetries` times and the last error is surfaced unchanged;
the default `maxRetries` is 6. -/
theorem claim6_retry_bound {α : Type} (o : OpenAI) (op : Nat → Except String α)
    (e : Nat → String) (hop : ∀ i, op i = .error (e i))
    (hm : 0 < o.maxRetries) :
    OpenAI.completionWithRetry o op =
      (.error (e (o.maxRetries - 1)), o.maxRetries) ∧
    OpenAI.defaults.maxRetries = 6 := by
  constructor
  · unfold OpenAI.completionWithRetry backOff
    rw [backOffAux_all_fail op e hop (o.maxRetries - 1) 0]
    have h1 : 0 + (o.maxRetries - 1) = o.maxRetries - 1 := by omega
    have h2 : o.maxRetries - 1 + 1 = o.maxRetries := by omega
    rw [h1, h2]
  · rfl

/-- Claim C6 witness: six attempts on an always-failing operation with
the default configuration, surfacing the error unchanged. -/
theorem claim6_retry_bound_witness :
    OpenAI.completionWithRetry OpenAI.defaults
      (fun _ => (.error "boom" : Except String Nat)) = (.error "boom", 6) ∧
    OpenAI.defaults.maxRetries = 6 :=
  claim6_retry_bound OpenAI.defaults _ (fun _ => "boom") (fun _ => rfl) (by decide)

/-- Claim C7: for a single prompt, the streaming path fed the fragments
"Hel" and "lo" followed by the sentinel and the non-streaming path fed
the single text "Hello" produce an identical final Generation whose
text is "Hello", the fragments concatenated in arrival order. -/
theorem claim7_streaming_equivalence :
    OpenAI._generate { OpenAI.defaults with streaming := true }
      helloStreamProvider ["p"] none =
      (.ok ⟨[[⟨"Hello", some "stop", none⟩]], some {}⟩, 1) ∧
    OpenAI._generate OpenAI.defaults helloPlainProvider ["p"] none =
      (.ok ⟨[[⟨"Hello", some "stop", none⟩]], some {}⟩, 1) := by
  decide

/-- Claim C9: with concurrency bound k, every reachable limiter state
has at most k running operations, and the admitted-task log is always a
prefix of the submission log (FIFO admission). -/
theorem claim9_concurrency_bound (kk : Nat) (evs : List QEvent) (s' : QState)
    (h : qrun (some kk) qinit evs = some s') :
    s'.running.length ≤ kk ∧ s'.enqueued = s'.admitted ++ s'.waiting :=
  qrun_inv kk evs qinit s' h (by simp [qinit]) (by simp [qinit])

/-- Claim C9 witness: a concrete run with k = 1 and two submitted
tasks. -/
theorem claim9_concurrency_bound_witness :
    ({ waiting := [], running := [1], admitted := [0, 1],
       enqueued := [0, 1] } : QState).running.length ≤ 1 ∧
    ({ waiting := [], running := [1], admitted := [0, 1],
       enqueued := [0, 1] } : QState).enqueued =
      ({ waiting := [], running := [1], admitted := [0, 1],
         enqueued := [0, 1] } : QState).admitted ++
      ({ waiting := [], running := [1], admitted := [0, 1],
         enqueued := [0, 1] } : QState).waiting :=
  claim9_concurrency_bound 1 [.enq 0, .enq 1, .adm, .fin 0, .adm] _ (by decide)

/-- Claim C1 (amended): for non-streaming calls whose provider returns
n choices per prompt in order, `generate` returns exactly one
generation-list per prompt in original order, both on the uncached path
and on the cached path (where slot i holds the cache hit for prompt i
or the freshly computed value); on the streaming path this holds only
when a sub-batch contains a single prompt, since a streamed sub-batch
contributes exactly one reconstructed choice. -/
theorem claim1_result_shape (o : OpenAI) (apiKey : Option String)
    (provider : Provider) (perPrompt : String → List Choice)
    (prompts : List String) (stop : Option (List String)) (store : Store)
    (hs : o.streaming = false) (hn : 0 < o.n) (hb : 0 < o.batchSize)
    (hc : ∀ sb, (provider (effectiveStop o stop) sb).choices = (sb.map perPrompt).flatten)
    (hl : ∀ p, (perPrompt p).length = o.n)
    (hstop : ¬(o.stop.isSome = true ∧ stop.isSome = true)) :
    (∃ u calls,
      OpenAI.generate o apiKey getCallbackManager (some false) provider prompts stop store =
        (.ok (prompts.map (fun p => some ((perPrompt p).map toGeneration)), u),
         store, calls)) ∧
    (∃ u store2 calls gens,
      OpenAI.generate o apiKey getCallbackManager none provider prompts stop store =
        (.ok (gens, u), store2, calls) ∧
      gens.length = prompts.length ∧
      gens = (List.range prompts.length).map (fun i =>
        some ((storeLookup store (prompts.getD i "") (llmStringKey o apiKey stop)).getD
          ((perPrompt (prompts.getD i "")).map toGeneration)))) ∧
    (∀ (o2 : OpenAI) (provider2 : Provider) (p : String) (c : Choice),
      o2.streaming = true → ¬(o2.stop.isSome = true ∧ stop.isSome = true) →
      o2.n = 1 → 0 < o2.batchSize →
      streamChoice (provider2 (effectiveStop o2 stop) [p]).events {} = some c →
      ∃ u, OpenAI.generate o2 apiKey getCallbackManager (some false) provider2 [p] stop store =
        (.ok ([some [toGeneration c]], u), store, 1)) := by
  refine ⟨?_, ?_, ?_⟩
  · refine ⟨some ((chunkArray prompts o.batchSize).foldl
        (fun u sb => addUsage u ((provider (effectiveStop o stop) sb).usage.getD {})) {}),
      (chunkArray prompts o.batchSize).length, ?_⟩
    unfold OpenAI.generate
    rw [if_pos rfl, uncached_default,
      generate_inner_spec o provider perPrompt prompts stop hs hn hb hc hl hstop]
    dsimp only
    rw [List.map_map]
    rfl
  · obtain ⟨u, s2, c, h⟩ := generate_cached_spec o apiKey provider perPrompt
      prompts stop store none (by simp) hs hn hb hc hl hstop
    exact ⟨u, s2, c, _, h, by simp, rfl⟩
  · intro o2 provider2 p c hs2 hstop2 hn2 hb2 hsc
    refine ⟨some (addUsage {} ((provider2 (effectiveStop o2 stop) [p]).usage.getD {})), ?_⟩
    unfold OpenAI.generate
    rw [if_pos rfl, uncached_default]
    unfold OpenAI._generate
    rw [if_neg hstop2]
    rw [chunkArray_single p o2.batchSize hb2]
    simp only [generateLoop, hs2, if_true]
    rw [hsc]
    dsimp only
    rw [hn2, List.nil_append, chunkArray_single c 1 (by omega)]
    rfl

/-- Claim C1 witness: the amended statement instantiated at the echo
provider with two prompts and an empty store. -/
theorem claim1_result_shape_witness :
    (∃ u calls,
      OpenAI.generate OpenAI.defaults (some "k") getCallbackManager (some false)
        echoProvider ["a", "b"] none [] =
        (.ok ((["a", "b"] : List String).map
          (fun p => some ((echoPerPrompt p).map toGeneration)), u),
         [], calls)) ∧
    (∃ u store2 calls gens,
      OpenAI.generate OpenAI.defaults (some "k") getCallbackManager none
        echoProvider ["a", "b"] none [] =
        (.ok (gens, u), store2, calls) ∧
      gens.length = (["a", "b"] : List String).length ∧
      gens = (List.range (["a", "b"] : List String).length).map (fun i =>
        some ((storeLookup [] ((["a", "b"] : List String).getD i "")
            (llmStringKey OpenAI.defaults (some "k") none)).getD
          ((echoPerPrompt ((["a", "b"] : List String).getD i "")).map toGeneration)))) ∧
    (∀ (o2 : OpenAI) (provider2 : Provider) (p : String) (c : Choice),
      o2.streaming = true → ¬(o2.stop.isSome = true ∧ (none : Option (List String)).isSome = true) →
      o2.n = 1 → 0 < o2.batchSize →
      streamChoice (provider2 (effectiveStop o2 none) [p]).events {} = some c →
      ∃ u, OpenAI.generate o2 (some "k") getCallbackManager (some false) provider2 [p] none [] =
        (.ok ([some [toGeneration c]], u), [], 1)) :=
  claim1_result_shape OpenAI.defaults (some "k") echoProvider echoPerPrompt
    ["a", "b"] none [] rfl (by decide) (by decide) (fun _ => rfl) (fun _ => rfl)
    (by decide)

/-- Claim C1 counterexample: with streaming enabled, two prompts in one
sub-batch yield a single generation-list (one per sub-batch), so the
result does not contain one generation-list per prompt. -/
theorem claim1_counterexample :
    (OpenAI.generate { OpenAI.defaults with streaming := true } (some "k")
      getCallbackManager (some false)
      (fun _ _ => { events := [.chunk [⟨some "x", none, none⟩], .done] })
      ["a", "b"] none []).1 =
      .ok ([some [⟨"x", none, none⟩]], some {}) ∧
    ([some [(⟨"x", none, none⟩ : Generation)]] :
      List (Option (List Generation))).length = 1 ∧
    (["a", "b"] : List String).length = 2 := by
  decide

/-- Claim C2 (amended): with caching enabled, a repeated single-prompt
call performs the network operation at most once in total: the second
call issues no network call, leaves the store unchanged and returns the
same generations; its llmOutput, however, is the empty object rather
than the first call's token-usage object. -/
theorem claim2_idempotence (o : OpenAI) (apiKey : Option String)
    (provider : Provider) (perPrompt : String → List Choice) (p : String)
    (stop : Option (List String)) (store : Store) (cacheFlag : Option Bool)
    (hcf : ¬ cacheFlag = some false)
    (hs : o.streaming = false) (hn : 0 < o.n) (hb : 0 < o.batchSize)
    (hc : ∀ sb, (provider (effectiveStop o stop) sb).choices = (sb.map perPrompt).flatten)
    (hl : ∀ q, (perPrompt q).length = o.n)
    (hstop : ¬(o.stop.isSome = true ∧ stop.isSome = true)) :
    ∃ g1 u1 s1 c1,
      OpenAI.generate o apiKey getCallbackManager cacheFlag provider [p] stop store =
        (.ok (g1, u1), s1, c1) ∧
      OpenAI.generate o apiKey getCallbackManager cacheFlag provider [p] stop s1 =
        (.ok (g1, none), s1, 0) ∧
      c1 ≤ 1 := by
  cases hlk : storeLookup store p (llmStringKey o apiKey stop) with
  | some g =>
    exact ⟨[some g], none, store, 0,
      generate_single_hit o apiKey provider p stop store g cacheFlag hcf hlk,
      generate_single_hit o apiKey provider p stop store g cacheFlag hcf hlk,
      by omega⟩
  | none =>
    refine ⟨[some ((perPrompt p).map toGeneration)],
      some (addUsage {} ((provider (effectiveStop o stop) [p]).usage.getD {})),
      storeUpdate store p (llmStringKey o apiKey stop) ((perPrompt p).map toGeneration),
      1,
      generate_single_miss o apiKey provider perPrompt p stop store cacheFlag hcf
        hs hn hb hc hl hstop hlk,
      ?_, by omega⟩
    apply generate_single_hit o apiKey provider p stop _ _ cacheFlag hcf
    rw [storeLookup_update]
    simp

/-- Claim C2 witness: the amended statement at the echo provider with
an empty store. -/
theorem claim2_idempotence_witness :
    ∃ g1 u1 s1 c1,
      OpenAI.generate OpenAI.defaults (some "k") getCallbackManager none
        echoProvider ["p"] none [] = (.ok (g1, u1), s1, c1) ∧
      OpenAI.generate OpenAI.defaults (some "k") getCallbackManager none
        echoProvider ["p"] none s1 = (.ok (g1, none), s1, 0) ∧
      c1 ≤ 1 :=
  claim2_idempotence OpenAI.defaults (some "k") echoProvider echoPerPrompt
    "p" none [] none (by simp) rfl (by decide) (by decide) (fun _ => rfl)
    (fun _ => rfl) (by decide)

/-- Claim C2 counterexample: the second (fully cached) call returns an
empty llmOutput while the first call's llmOutput carries the token
usage object, so the two returned results are not equal; the second
call still makes 0 network calls and returns the same generations. -/
theorem claim2_counterexample :
    (OpenAI.generate OpenAI.defaults (some "k") getCallbackManager none
      echoProvider ["p"] none []).1 =
      .ok ([some [⟨"p", none, none⟩]], some {}) ∧
    (OpenAI.generate OpenAI.defaults (some "k") getCallbackManager none
      echoProvider ["p"] none
      (OpenAI.generate OpenAI.defaults (some "k") getCallbackManager none
        echoProvider ["p"] none []).2.1).1 =
      .ok ([some [⟨"p", none, none⟩]], none) ∧
    (OpenAI.generate OpenAI.defaults (some "k") getCallbackManager none
      echoProvider ["p"] none
      (OpenAI.generate OpenAI.defaults (some "k") getCallbackManager none
        echoProvider ["p"] none []).2.1).2.2 = 0 ∧
    ¬ ((.ok (([some [⟨"p", none, none⟩]] : List (Option (List Generation))),
          some ({} : TokenUsage)) : Outcome GenRaw) =
        .ok ([some [⟨"p", none, none⟩]], none)) := by
  decide

/-- Claim C5 (amended): when a stop list is supplied both at
construction and as the call argument, the stop-conflict error is
raised exactly when the uncached path runs: always with caching
disabled, and with caching enabled whenever at least one prompt misses
the cache; in those cases no network call is made and the store is
unchanged. When every prompt hits the cache the call succeeds and no
error is raised. -/
theorem claim5_stop_conflict (o : OpenAI) (apiKey : Option String)
    (provider : Provider) (prompts : List String) (s1 s2 : List String)
    (store : Store) (ho : o.stop = some s1) :
    (OpenAI.generate o apiKey getCallbackManager (some false) provider prompts
        (some s2) store =
      (.err "Stop found in input and default params", store, 0)) ∧
    ((∃ i, i < prompts.length ∧
        storeLookup store (prompts.getD i "") (llmStringKey o apiKey (some s2)) = none) →
      OpenAI.generate o apiKey getCallbackManager none provider prompts
          (some s2) store =
        (.err "Stop found in input and default params", store, 0)) ∧
    ((∀ q ∈ prompts,
        (storeLookup store q (llmStringKey o apiKey (some s2))).isSome) →
      OpenAI.generate o apiKey getCallbackManager none provider prompts
          (some s2) store =
        (.ok (cacheLookups store (llmStringKey o apiKey (some s2)) prompts, none),
         store, 0)) := by
  have hinner : ∀ ps : List String, OpenAI._generate o provider ps (some s2) =
      (.err "Stop found in input and default params", 0) := by
    intro ps
    unfold OpenAI._generate
    rw [if_pos ⟨by rw [ho]; rfl, rfl⟩]
  refine ⟨?_, ?_, ?_⟩
  · unfold OpenAI.generate
    rw [if_pos rfl, uncached_default, hinner prompts]
  · rintro ⟨i, hi, hnone⟩
    unfold OpenAI.generate
    rw [if_neg (by simp)]
    dsimp only
    have hne : ¬ (missingIndices
        (cacheLookups store (llmStringKey o apiKey (some s2)) prompts)
        prompts.length).isEmpty = true := by
      intro hempty
      rw [List.isEmpty_iff] at hempty
      have hmem : i ∈ missingIndices
          (cacheLookups store (llmStringKey o apiKey (some s2)) prompts)
          prompts.length := by
        rw [mem_missingIndices]
        refine ⟨hi, ?_⟩
        rw [cacheLookups_getD store _ prompts i hi, hnone]
        rfl
      rw [hempty] at hmem
      simp at hmem
    rw [if_neg hne, uncached_default, hinner _]
  · intro hall
    unfold OpenAI.generate
    rw [if_neg (by simp)]
    dsimp only
    have hemp : (missingIndices
        (cacheLookups store (llmStringKey o apiKey (some s2)) prompts)
        prompts.length).isEmpty = true := by
      rw [List.isEmpty_iff]
      unfold missingIndices
      rw [List.filter_eq_nil_iff]
      intro a ha
      rw [List.mem_range] at ha
      rw [cacheLookups_getD store _ prompts a ha]
      have hmem : prompts.getD a "" ∈ prompts := by
        rw [List.getD_eq_getElem?_getD, List.getElem?_eq_getElem ha]
        exact List.getElem_mem ..
      obtain ⟨g, hg⟩ := Option.isSome_iff_exists.mp (hall _ hmem)
      rw [hg]
      simp
    rw [if_pos hemp]

/-- Claim C5 witness: the amended statement at a concrete instance with
both stop lists present. -/
theorem claim5_stop_conflict_witness :
    (OpenAI.generate { OpenAI.defaults with stop := some ["x"] } (some "k")
        getCallbackManager (some false) echoProvider ["p"] (some ["y"]) [] =
      (.err "Stop found in input and default params", [], 0)) ∧
    ((∃ i, i < (["p"] : List String).length ∧
        storeLookup [] ((["p"] : List String).getD i "")
          (llmStringKey { OpenAI.defaults with stop := some ["x"] } (some "k")
            (some ["y"])) = none) →
      OpenAI.generate { OpenAI.defaults with stop := some ["x"] } (some "k")
          getCallbackManager none echoProvider ["p"] (some ["y"]) [] =
        (.err "Stop found in input and default params", [], 0)) ∧
    ((∀ q ∈ (["p"] : List String),
        (storeLookup [] q (llmStringKey { OpenAI.defaults with stop := some ["x"] }
          (some "k") (some ["y"]))).isSome) →
      OpenAI.generate { OpenAI.defaults with stop := some ["x"] } (some "k")
          getCallbackManager none echoProvider ["p"] (some ["y"]) [] =
        (.ok (cacheLookups []
          (llmStringKey { OpenAI.defaults with stop := some ["x"] } (some "k")
            (some ["y"])) ["p"], none), [], 0)) :=
  claim5_stop_conflict { OpenAI.defaults with stop := some ["x"] } (some "k")
    echoProvider ["p"] ["x"] ["y"] [] rfl

/-- Claim C5 counterexample: with a stop list both on the instance and
as call argument but every prompt already cached, `generate` succeeds
instead of failing, so the conflict is not rejected regardless of cache
state. -/
theorem claim5_counterexample :
    (OpenAI.generate { OpenAI.defaults with stop := some ["x"] } (some "k")
      getCallbackManager none echoProvider ["p"] (some ["y"])
      (storeUpdate [] "p"
        (llmStringKey { OpenAI.defaults with stop := some ["x"] } (some "k")
          (some ["y"]))
        [⟨"hi", none, none⟩])).1 =
      .ok ([some [⟨"hi", none, none⟩]], none) := by
  decide

/-- Claim C10: caching is on by default. An instance constructed
without a cache option (cache undefined) takes the cached path: a
prompt already in the module cache is answered with 0 network calls,
and a missing prompt is computed once and written back under the
derived key; only cache explicitly false bypasses lookup and fill, with
the store unchanged even when the prompt is cached. -/
theorem claim10_default_caching (o : OpenAI) (apiKey : Option String)
    (provider : Provider) (perPrompt : String → List Choice) (p : String)
    (stop : Option (List String)) (store : Store)
    (hs : o.streaming = false) (hn : 0 < o.n) (hb : 0 < o.batchSize)
    (hc : ∀ sb, (provider (effectiveStop o stop) sb).choices = (sb.map perPrompt).flatten)
    (hl : ∀ q, (perPrompt q).length = o.n)
    (hstop : ¬(o.stop.isSome = true ∧ stop.isSome = true)) :
    (∀ g, storeLookup store p (llmStringKey o apiKey stop) = some g →
      OpenAI.generate o apiKey getCallbackManager none provider [p] stop store =
        (.ok ([some g], none), store, 0)) ∧
    (storeLookup store p (llmStringKey o apiKey stop) = none →
      OpenAI.generate o apiKey getCallbackManager none provider [p] stop store =
        (.ok ([some ((perPrompt p).map toGeneration)],
              some (addUsage {} ((provider (effectiveStop o stop) [p]).usage.getD {}))),
         storeUpdate store p (llmStringKey o apiKey stop)
           ((perPrompt p).map toGeneration), 1) ∧
      storeLookup (storeUpdate store p (llmStringKey o apiKey stop)
          ((perPrompt p).map toGeneration)) p (llmStringKey o apiKey stop) =
        some ((perPrompt p).map toGeneration)) ∧
    (OpenAI.generate o apiKey getCallbackManager (some false) provider [p] stop store =
      (.ok ([some ((perPrompt p).map toGeneration)],
            some (addUsage {} ((provider (effectiveStop o stop) [p]).usage.getD {}))),
       store, 1)) := by
  refine ⟨?_, ?_, ?_⟩
  · intro g hg
    exact generate_single_hit o apiKey provider p stop store g none (by simp) hg
  · intro hm
    refine ⟨generate_single_miss o apiKey provider perPrompt p stop store none
      (by simp) hs hn hb hc hl hstop hm, ?_⟩
    rw [storeLookup_update]
    simp
  · exact generate_single_uncached o apiKey provider perPrompt p stop store
      hs hn hb hc hl hstop

/-- Claim C10 witness: the statement at the echo provider with an empty
store. -/
theorem claim10_default_caching_witness :
    (∀ g, storeLookup [] "p" (llmStringKey OpenAI.defaults (some "k") none) = some g →
      OpenAI.generate OpenAI.defaults (some "k") getCallbackManager none
        echoProvider ["p"] none [] = (.ok ([some g], none), [], 0)) ∧
    (storeLookup [] "p" (llmStringKey OpenAI.defaults (some "k") none) = none →
      OpenAI.generate OpenAI.defaults (some "k") getCallbackManager none
        echoProvider ["p"] none [] =
        (.ok ([some ((echoPerPrompt "p").map toGeneration)],
              some (addUsage {} ((echoProvider (effectiveStop OpenAI.defaults none) ["p"]).usage.getD {}))),
         storeUpdate [] "p" (llmStringKey OpenAI.defaults (some "k") none)
           ((echoPerPrompt "p").map toGeneration), 1) ∧
      storeLookup (storeUpdate [] "p" (llmStringKey OpenAI.defaults (some "k") none)
          ((echoPerPrompt "p").map toGeneration)) "p"
          (llmStringKey OpenAI.defaults (some "k") none) =
        some ((echoPerPrompt "p").map toGeneration)) ∧
    (OpenAI.generate OpenAI.defaults (some "k") getCallbackManager (some false)
        echoProvider ["p"] none [] =
      (.ok ([some ((echoPerPrompt "p").map toGeneration)],
            some (addUsage {} ((echoProvider (effectiveStop OpenAI.defaults none) ["p"]).usage.getD {}))),
       [], 1)) :=
  claim10_default_caching OpenAI.defaults (some "k") echoProvider echoPerPrompt
    "p" none [] rfl (by decide) (by decide) (fun _ => rfl) (fun _ => rfl)
    (by decide)

/-- Claim C8: batching splits the prompt list into order-preserving
sub-batches — ceil(len/batchSize) of them, each non-empty of size at
most batchSize and all but the last of size exactly batchSize, whose
concatenation is the original list — each sub-batch is one network
call, and the flat choice list is regrouped into per-prompt generation
lists of exactly n choices each, in original prompt order. -/
theorem claim8_batching (o : OpenAI) (provider : Provider)
    (perPrompt : String → List Choice) (prompts : List String)
    (stop : Option (List String))
    (hs : o.streaming = false) (hn : 0 < o.n) (hb : 0 < o.batchSize)
    (hc : ∀ sb, (provider (effectiveStop o stop) sb).choices = (sb.map perPrompt).flatten)
    (hl : ∀ p, (perPrompt p).length = o.n)
    (hstop : ¬(o.stop.isSome = true ∧ stop.isSome = true)) :
    (chunkArray prompts o.batchSize).flatten = prompts ∧
    (chunkArray prompts o.batchSize).length =
      (prompts.length + o.batchSize - 1) / o.batchSize ∧
    (∀ c ∈ (chunkArray prompts o.batchSize).dropLast, c.length = o.batchSize) ∧
    (∀ c ∈ chunkArray prompts o.batchSize, c.length ≤ o.batchSize ∧ c ≠ []) ∧
    OpenAI._generate o provider prompts stop =
      (.ok ⟨prompts.map (fun p => (perPrompt p).map toGeneration),
            some ((chunkArray prompts o.batchSize).foldl
              (fun u sb => addUsage u ((provider (effectiveStop o stop) sb).usage.getD {})) {})⟩,
       (chunkArray prompts o.batchSize).length) ∧
    (∀ gl ∈ prompts.map (fun p => (perPrompt p).map toGeneration),
      gl.length = o.n) := by
  refine ⟨chunkArray_flatten hb prompts, chunkArray_length hb prompts,
    chunkArray_dropLast hb prompts, chunkArray_mem hb prompts,
    generate_inner_spec o provider perPrompt prompts stop hs hn hb hc hl hstop,
    ?_⟩
  intro gl hgl
  obtain ⟨p, _, rfl⟩ := List.mem_map.mp hgl
  rw [List.length_map]
  exact hl p

/-- Claim C8 witness: batchSize 2 with five prompts gives exactly three
sub-batches of sizes 2, 2, 1 and one network call each, reassembling to
five generation-lists in order. -/
theorem claim8_batching_witness :
    (chunkArray (["a", "b", "c", "d", "e"] : List String)
      ({ OpenAI.defaults with batchSize := 2 } : OpenAI).batchSize).flatten =
      ["a", "b", "c", "d", "e"] ∧
    (chunkArray (["a", "b", "c", "d", "e"] : List String)
      ({ OpenAI.defaults with batchSize := 2 } : OpenAI).batchSize).length =
      ((["a", "b", "c", "d", "e"] : List String).length +
        ({ OpenAI.defaults with batchSize := 2 } : OpenAI).batchSize - 1) /
        ({ OpenAI.defaults with batchSize := 2 } : OpenAI).batchSize ∧
    (∀ c ∈ (chunkArray (["a", "b", "c", "d", "e"] : List String)
        ({ OpenAI.defaults with batchSize := 2 } : OpenAI).batchSize).dropLast,
      c.length = ({ OpenAI.defaults with batchSize := 2 } : OpenAI).batchSize) ∧
    (∀ c ∈ chunkArray (["a", "b", "c", "d", "e"] : List String)
        ({ OpenAI.defaults with batchSize := 2 } : OpenAI).batchSize,
      c.length ≤ ({ OpenAI.defaults with batchSize := 2 } : OpenAI).batchSize ∧
      c ≠ []) ∧
    OpenAI._generate { OpenAI.defaults with batchSize := 2 } echoProvider
        ["a", "b", "c", "d", "e"] none =
      (.ok ⟨(["a", "b", "c", "d", "e"] : List String).map
              (fun p => (echoPerPrompt p).map toGeneration),
            some ((chunkArray (["a", "b", "c", "d", "e"] : List String)
                ({ OpenAI.defaults with batchSize := 2 } : OpenAI).batchSize).foldl
              (fun u sb => addUsage u
                ((echoProvider (effectiveStop { OpenAI.defaults with batchSize := 2 } none) sb).usage.getD {})) {})⟩,
       (chunkArray (["a", "b", "c", "d", "e"] : List String)
        ({ OpenAI.defaults with batchSize := 2 } : OpenAI).batchSize).length) ∧
    (∀ gl ∈ (["a", "b", "c", "d", "e"] : List String).map
        (fun p => (echoPerPrompt p).map toGeneration),
      gl.length = ({ OpenAI.defaults with batchSize := 2 } : OpenAI).n) :=
  claim8_batching { OpenAI.defaults with batchSize := 2 } echoProvider
    echoPerPrompt ["a", "b", "c", "d", "e"] none rfl (by decide) (by decide)
    (fun _ => rfl) (fun _ => rfl) (by decide)
